import Mathlib

/-!
# Verification of the livescore-mcp server core (main.go)

A shallow embedding of the functional core of `main.go`:

* tool-argument extraction (`toMap` / `getStr` / `getInt`),
* upstream URL construction (`buildURL` and the inline `search` builder),
  including a model of `net/url`'s `Values.Encode` (sorted keys,
  query-escaped values),
* the response-classification half of `apiRequest` (the network I/O is
  abstracted into the `(status, body)` input; `encoding/json`'s
  `Unmarshal` into `interface{}` and `MarshalIndent(v, "", "  ")` are
  modelled by an executable parser/printer over a `Json` value type,
  restricted to integer numerals, with Go's sorted-key map marshalling
  and HTML escaping),
* the `health` tool handler, and
* the IP-keyed token-bucket rate limiter (`newRateLimiter`,
  `getLimiter`, `cleanup`, `middleware`), with time measured in seconds
  as rationals and the `golang.org/x/time/rate` limiter modelled by its
  documented token-bucket semantics (`tokens` advance by
  `elapsed * rate` capped at `burst`; `Allow` consumes one token when
  available and otherwise leaves the state unchanged).
-/

set_option autoImplicit false

namespace LiveScoreMCP

/-- A tool-argument value as decoded by `encoding/json` into
`interface{}`: the handlers only probe for `string` and `float64`
(numbers; modelled here as integers, the only numerals the tools use),
any other dynamic type falls through to the fallback branch. -/
inductive ArgValue where
  | str (s : String)
  | num (n : Int)
  | other
deriving DecidableEq

/-- The `args any` argument map (`map[string]interface{}` after
`toMap`), modelled as an association list with `List.lookup` as map
access. -/
abbrev ToolArguments := List (String × ArgValue)

/-- `getStr`: returns `m[key]` when it is a *non-empty* string, else
the fallback. -/
def getStr (args : ToolArguments) (key fallback : String) : String :=
  match List.lookup key args with
  | some (.str v) => if v ≠ "" then v else fallback
  | _ => fallback

/-- `getInt`: returns `m[key]` when it is a number, else the fallback. -/
def getInt (args : ToolArguments) (key : String) (fallback : Int) : Int :=
  match List.lookup key args with
  | some (.num n) => n
  | _ => fallback

/-- `baseURL` constant. -/
def baseURL : String := "https://uitslagen.live/footapi"

/-- `defaultLang` constant. -/
def defaultLang : String := "en"

/-- `defaultVersion` constant. -/
def defaultVersion : Int := 2800

/-- One hex digit, upper case, as used by `net/url` percent-encoding. -/
def hexDigit (n : Nat) : Char :=
  if n < 10 then Char.ofNat ('0'.toNat + n) else Char.ofNat ('A'.toNat + n - 10)

/-- Percent-encoding of one UTF-8 byte. -/
def percentByte (b : UInt8) : String :=
  let n := b.toNat
  String.mk ['%', hexDigit (n / 16), hexDigit (n % 16)]

/-- `url.QueryEscape` applied to one character: alphanumerics and
`-_.~` are kept, space becomes `+`, everything else is
percent-encoded byte-wise. -/
def queryEscapeChar (c : Char) : String :=
  if c = ' ' then "+"
  else if c.isAlphanum ∨ c = '-' ∨ c = '_' ∨ c = '.' ∨ c = '~' then
    String.singleton c
  else
    String.join (((String.singleton c).toUTF8.toList).map percentByte)

/-- `url.QueryEscape`. -/
def queryEscape (s : String) : String :=
  String.join (s.toList.map queryEscapeChar)

/-- `url.Values` restricted to single-valued keys (the server only ever
uses `Set`). -/
abbrev Values := List (String × String)

/-- `Values.Set`: replace any binding of `k` by `v`. -/
def valuesSet (q : Values) (k v : String) : Values :=
  (k, v) :: List.filter (fun p => p.1 ≠ k) q

/-- Byte-wise key order used by `Values.Encode`'s `sort.Strings`. -/
def keyLE (a b : String) : Bool :=
  match compare a b with
  | .gt => false
  | _ => true

/-- Insertion step of the key sort. -/
def insertSorted (p : String × String) : Values → Values
  | [] => [p]
  | q :: qs => if keyLE p.1 q.1 then p :: q :: qs else q :: insertSorted p qs

/-- Sort a `Values` list by key (models `Values.Encode` sorting). -/
def sortByKey : Values → Values
  | [] => []
  | p :: ps => insertSorted p (sortByKey ps)

/-- `strings.Join(parts, "&")`. -/
def joinAmp : List String → String
  | [] => ""
  | [x] => x
  | x :: y :: xs => x ++ "&" ++ joinAmp (y :: xs)

/-- `url.Values.Encode`: sorted by key, `k=escape(v)` joined with `&`. -/
def valuesEncode (q : Values) : String :=
  joinAmp ((sortByKey q).map (fun p => p.1 ++ "=" ++ queryEscape p.2))

/-- The query-parameter map built by `buildURL`: `lang` and `version`
from the arguments (with defaults), then the explicit extra pairs. -/
def buildQuery (args : ToolArguments) (extra : List (String × String)) : Values :=
  let q : Values := []
  let q := valuesSet q "lang" (getStr args "language" defaultLang)
  let q := valuesSet q "version" (toString (getInt args "version" defaultVersion))
  List.foldl (fun q p => valuesSet q p.1 p.2) q extra

/-- `buildURL`: base URL joined with the relative path, plus the encoded
query (the variadic flat `extra` list is modelled as key/value pairs,
which is how every call site uses it). -/
def buildURL (path : String) (args : ToolArguments) (extra : List (String × String)) : String :=
  baseURL ++ "/" ++ path ++ "?" ++ valuesEncode (buildQuery args extra)

/-- The dynamic value produced by `json.Unmarshal` into `interface{}`:
`nil`, `bool`, number (restricted here to integer numerals, the only
kind the upstream bodies in the claims use), `string`,
`[]interface{}`, `map[string]interface{}`. -/
inductive Json where
  | null
  | bool (b : Bool)
  | num (n : Int)
  | str (s : String)
  | arr (xs : List Json)
  | obj (fields : List (String × Json))

/-- JSON whitespace skip. -/
def skipWs : List Char → List Char
  | c :: cs => if c = ' ' ∨ c = '\t' ∨ c = '\n' ∨ c = '\r' then skipWs cs else c :: cs
  | [] => []

/-- Decimal digit run (at least one digit). -/
def parseDigits (acc : Nat) : List Char → Option (Nat × List Char)
  | c :: cs =>
    if c.isDigit then
      match parseDigits (acc * 10 + (c.toNat - '0'.toNat)) cs with
      | some r => some r
      | none => some (acc * 10 + (c.toNat - '0'.toNat), cs)
    else if acc = 0 then none else some (acc, c :: cs)
  | [] => if acc = 0 then none else some (acc, [])

/-- Hex digit value. -/
def hexVal (c : Char) : Option Nat :=
  if c.isDigit then some (c.toNat - '0'.toNat)
  else if 'a' ≤ c ∧ c ≤ 'f' then some (c.toNat - 'a'.toNat + 10)
  else if 'A' ≤ c ∧ c ≤ 'F' then some (c.toNat - 'A'.toNat + 10)
  else none

/-- Body of a JSON string literal (after the opening quote), with the
standard escape sequences; unescaped control characters are rejected,
as `encoding/json` does. -/
def parseStringChars (fuel : Nat) (acc : List Char) : List Char → Option (String × List Char)
  | [] => none
  | c :: cs =>
    match fuel with
    | 0 => none
    | fuel + 1 =>
      if c = '"' then some (String.mk acc.reverse, cs)
      else if c = '\\' then
        match cs with
        | 'n' :: cs => parseStringChars fuel ('\n' :: acc) cs
        | 't' :: cs => parseStringChars fuel ('\t' :: acc) cs
        | 'r' :: cs => parseStringChars fuel ('\r' :: acc) cs
        | 'b' :: cs => parseStringChars fuel ((Char.ofNat 8) :: acc) cs
        | 'f' :: cs => parseStringChars fuel ((Char.ofNat 12) :: acc) cs
        | '"' :: cs => parseStringChars fuel ('"' :: acc) cs
        | '\\' :: cs => parseStringChars fuel ('\\' :: acc) cs
        | '/' :: cs => parseStringChars fuel ('/' :: acc) cs
        | 'u' :: a :: b :: e :: d :: cs =>
          match hexVal a, hexVal b, hexVal e, hexVal d with
          | some va, some vb, some ve, some vd =>
            parseStringChars fuel ((Char.ofNat (((va * 16 + vb) * 16 + ve) * 16 + vd)) :: acc) cs
          | _, _, _, _ => none
        | _ => none
      else if c.toNat < 32 then none
      else parseStringChars fuel (c :: acc) cs

mutual

/-- One JSON value (fuel-driven recursion; `parseJson` supplies enough
fuel for any input). -/
def parseValue : Nat → List Char → Option (Json × List Char)
  | 0, _ => none
  | fuel + 1, input =>
    match skipWs input with
    | [] => none
    | c :: cs =>
      if c = 'n' then
        match cs with
        | 'u' :: 'l' :: 'l' :: rest => some (.null, rest)
        | _ => none
      else if c = 't' then
        match cs with
        | 'r' :: 'u' :: 'e' :: rest => some (.bool true, rest)
        | _ => none
      else if c = 'f' then
        match cs with
        | 'a' :: 'l' :: 's' :: 'e' :: rest => some (.bool false, rest)
        | _ => none
      else if c = '"' then
        match parseStringChars (cs.length + 1) [] cs with
        | some (s, rest) => some (.str s, rest)
        | none => none
      else if c = '-' then
        match parseDigits 0 cs with
        | some (n, rest) => some (.num (-(n : Int)), rest)
        | none => none
      else if c.isDigit then
        match parseDigits 0 (c :: cs) with
        | some (n, rest) => some (.num (n : Int), rest)
        | none => none
      else if c = '[' then
        match skipWs cs with
        | ']' :: rest => some (.arr [], rest)
        | rest =>
          match parseElems fuel rest with
          | some (xs, rest) => some (.arr xs, rest)
          | none => none
      else if c = '{' then
        match skipWs cs with
        | '}' :: rest => some (.obj [], rest)
        | rest =>
          match parseMembers fuel rest with
          | some (fs, rest) => some (.obj fs, rest)
          | none => none
      else none

/-- Comma-separated array elements up to the closing bracket. -/
def parseElems : Nat → List Char → Option (List Json × List Char)
  | 0, _ => none
  | fuel + 1, input =>
    match parseValue fuel input with
    | none => none
    | some (v, rest) =>
      match skipWs rest with
      | ',' :: rest =>
        match parseElems fuel rest with
        | some (xs, rest) => some (v :: xs, rest)
        | none => none
      | ']' :: rest => some ([v], rest)
      | _ => none

/-- Comma-separated object members up to the closing brace. -/
def parseMembers : Nat → List Char → Option (List (String × Json) × List Char)
  | 0, _ => none
  | fuel + 1, input =>
    match skipWs input with
    | '"' :: cs =>
      match parseStringChars (cs.length + 1) [] cs with
      | none => none
      | some (k, rest) =>
        match skipWs rest with
        | ':' :: rest =>
          match parseValue fuel rest with
          | none => none
          | some (v, rest) =>
            match skipWs rest with
            | ',' :: rest =>
              match parseMembers fuel rest with
              | some (fs, rest) => some ((k, v) :: fs, rest)
              | none => none
            | '}' :: rest => some ([(k, v)], rest)
            | _ => none
        | _ => none
    | _ => none

end

/-- `json.Unmarshal(body, &data)`: the whole body must be one JSON
value, surrounded by optional whitespace. -/
def parseJson (s : String) : Option Json :=
  match parseValue (s.length + 1) s.toList with
  | some (v, rest) =>
    match skipWs rest with
    | [] => some v
    | _ => none
  | none => none

/-- Two hex digits, lower case, for `\u00XX` escapes in marshalled
strings. -/
def hexLower (n : Nat) : Char :=
  if n < 10 then Char.ofNat ('0'.toNat + n) else Char.ofNat ('a'.toNat + n - 10)

/-- `encoding/json` string escaping (with the default HTML escaping of
`<`, `>`, `&`). -/
def escapeJsonChar (c : Char) : String :=
  if c = '"' then "\\\""
  else if c = '\\' then "\\\\"
  else if c = '\n' then "\\n"
  else if c = '\r' then "\\r"
  else if c = '\t' then "\\t"
  else if c = '<' then "\\u003c"
  else if c = '>' then "\\u003e"
  else if c = '&' then "\\u0026"
  else if c.toNat < 32 then
    String.mk ['\\', 'u', '0', '0', hexLower (c.toNat / 16), hexLower (c.toNat % 16)]
  else String.singleton c

/-- Marshalled form of a string value. -/
def renderString (s : String) : String :=
  "\"" ++ String.join (s.toList.map escapeJsonChar) ++ "\""

/-- Indentation produced by `MarshalIndent(v, "", "  ")` at a nesting
level. -/
def jsonIndent (level : Nat) : String :=
  String.join (List.replicate level "  ")

/-- Key sort for object marshalling (Go marshals
`map[string]interface{}` with sorted keys). -/
def sortFields : List (String × Json) → List (String × Json)
  | [] => []
  | p :: ps =>
    let rec ins (p : String × Json) : List (String × Json) → List (String × Json)
      | [] => [p]
      | q :: qs => if keyLE p.1 q.1 then p :: q :: qs else q :: ins p qs
    ins p (sortFields ps)

mutual

/-- `json.MarshalIndent(v, "", "  ")`, fuel-driven; `marshalIndent`
supplies enough fuel for any value. -/
def renderJ : Nat → Nat → Json → String
  | 0, _, _ => ""
  | fuel + 1, lvl, j =>
    match j with
    | .null => "null"
    | .bool true => "true"
    | .bool false => "false"
    | .num n => toString n
    | .str s => renderString s
    | .arr [] => "[]"
    | .arr xs =>
      "[\n" ++ String.intercalate ",\n" (renderItems fuel (lvl + 1) xs)
        ++ "\n" ++ jsonIndent lvl ++ "]"
    | .obj [] => "\x7b\x7d"
    | .obj fs =>
      "\x7b\n" ++ String.intercalate ",\n" (renderFields fuel (lvl + 1) (sortFields fs))
        ++ "\n" ++ jsonIndent lvl ++ "\x7d"

/-- Rendered array items, one per line at the given level. -/
def renderItems : Nat → Nat → List Json → List String
  | 0, _, _ => []
  | _ + 1, _, [] => []
  | fuel + 1, lvl, x :: xs =>
    (jsonIndent lvl ++ renderJ fuel lvl x) :: renderItems fuel lvl xs

/-- Rendered object members, one per line at the given level. -/
def renderFields : Nat → Nat → List (String × Json) → List String
  | 0, _, _ => []
  | _ + 1, _, [] => []
  | fuel + 1, lvl, (k, v) :: fs =>
    (jsonIndent lvl ++ renderString k ++ ": " ++ renderJ fuel lvl v)
      :: renderFields fuel lvl fs

end

mutual

/-- Executable size measure of a JSON value, used as rendering fuel. -/
def jsonFuel : Json → Nat
  | .null => 1
  | .bool _ => 1
  | .num _ => 1
  | .str _ => 1
  | .arr xs => 1 + jsonFuelList xs
  | .obj fs => 1 + jsonFuelFields fs

/-- Size measure of an array's elements. -/
def jsonFuelList : List Json → Nat
  | [] => 0
  | x :: xs => 1 + jsonFuel x + jsonFuelList xs

/-- Size measure of an object's members. -/
def jsonFuelFields : List (String × Json) → Nat
  | [] => 0
  | (_, v) :: fs => 1 + jsonFuel v + jsonFuelFields fs

end

/-- `json.MarshalIndent(v, "", "  ")`. -/
def marshalIndent (v : Json) : String :=
  renderJ (jsonFuel v) 0 v

/-- `*mcp.CallToolResult` as the server builds it: either
`NewToolResultText` or `NewToolResultError`. -/
inductive ToolResult where
  | text (content : String)
  | error (message : String)
deriving DecidableEq

/-- The `IsError` flag of the result. -/
def ToolResult.isError : ToolResult → Bool
  | .text _ => false
  | .error _ => true

/-- The response-classification half of `apiRequest`: given the
upstream response status and body (the GET itself and transport
failures are outside this model) and the caller-supplied title,
produce the tool result. Mirrors: non-`http.StatusOK` statuses become
an error embedding status and body; otherwise the body is
pretty-printed when it parses as JSON and returned raw when it does
not. -/
def apiRequest (status : Nat) (body title : String) : ToolResult :=
  if status ≠ 200 then
    .error ("API error (status " ++ toString status ++ "): " ++ body)
  else
    match parseJson body with
    | some v => .text (title ++ ":\n\n" ++ marshalIndent v)
    | none => .text (title ++ ":\n\n" ++ body)

/-- The `health` tool handler: a pure local echo with no upstream
request (its `ToolResult` is a function of the arguments alone). -/
def healthHandler (args : ToolArguments) : ToolResult :=
  .text ("Echo: " ++ getStr args "message" "ok")

/-- Path built by the `get_team` handler (`team_gs/%s.json`). -/
def getTeamPath (args : ToolArguments) : String :=
  "team_gs/" ++ getStr args "id" "" ++ ".json"

/-- URL built by the `get_team` handler. -/
def getTeamURL (args : ToolArguments) : String :=
  buildURL (getTeamPath args) args []

/-- URL built by the `get_match` handler
(`matches/%s.json` with the extra `h2h` pair). -/
def getMatchURL (args : ToolArguments) : String :=
  buildURL ("matches/" ++ getStr args "id" "" ++ ".json") args
    [("h2h", toString (getInt args "h2h" 1))]

/-- Query-parameter map built inline by the `search` handler:
`q`, `lang`, `version`, and `country` only when non-empty. -/
def searchValues (args : ToolArguments) : Values :=
  let q : Values := []
  let q := valuesSet q "q" (getStr args "q" "")
  let q := valuesSet q "lang" (getStr args "language" defaultLang)
  let q := valuesSet q "version" (toString (getInt args "version" defaultVersion))
  if getStr args "country" "" ≠ "" then
    valuesSet q "country" (getStr args "country" "")
  else q

/-- URL built inline by the `search` handler. -/
def searchURL (args : ToolArguments) : String :=
  baseURL ++ "/search_v3" ++ "?" ++ valuesEncode (searchValues args)

/-- Internal state of a `rate.Limiter` (from `golang.org/x/time/rate`,
modelled by its documented token-bucket semantics): the current token
count and the time of the last update, with time in seconds as
rationals. -/
structure LimiterState where
  tokens : ℚ
  last : ℚ
deriving DecidableEq

/-- `ipLimiter`: a per-IP bucket plus the last-seen timestamp. -/
structure IpLimiter where
  limiter : LimiterState
  lastSeen : ℚ
deriving DecidableEq

/-- `rateLimiter`: the mutex-guarded visitors map (modelled as an
association list; the mutex serialises all accesses, so the model is
the sequential semantics), the refill rate in tokens per second, and
the burst capacity. -/
structure RateLimiter where
  visitors : List (String × IpLimiter)
  rate : ℚ
  burst : ℕ
deriving DecidableEq

/-- `rate.Every(interval)`: one token per `interval` seconds. -/
def rateEvery (interval : ℚ) : ℚ := 1 / interval

/-- `newRateLimiter` (the background `cleanup` goroutine is modelled by
explicit `cleanup` steps). -/
def newRateLimiter (r : ℚ) (burst : ℕ) : RateLimiter :=
  ⟨[], r, burst⟩

/-- The limiter installed in `main` in front of `/message`:
`newRateLimiter(rate.Every(2*time.Second), 10)`. -/
def messageLimiter : RateLimiter :=
  newRateLimiter (rateEvery 2) 10

/-- The idle-eviction threshold of `cleanup`, in seconds
(`10 * time.Minute`). -/
def idleThreshold : ℚ := 600

/-- Minimum of two rationals, written out so that it unfolds
definitionally. -/
def rmin (a b : ℚ) : ℚ := if a ≤ b then a else b

/-- Token advance of a bucket to time `now`: refill at `r` tokens per
second since the last update, capped at `burst`. -/
def limiterAdvance (r : ℚ) (burst : ℕ) (now : ℚ) (st : LimiterState) : ℚ :=
  rmin (burst : ℚ) (st.tokens + (now - st.last) * r)

/-- `limiter.Allow()` at time `now`: consume one token when available;
a denied request leaves the bucket unchanged. -/
def limiterAllow (r : ℚ) (burst : ℕ) (now : ℚ) (st : LimiterState) : Bool × LimiterState :=
  let t := limiterAdvance r burst now st
  if 1 ≤ t then (true, ⟨t - 1, now⟩) else (false, st)

/-- `getLimiter`: look the IP up; on a miss insert a fresh entry with a
full bucket, on a hit bump `lastSeen`. Returns the bucket (the Go code
returns a pointer into the entry; `middleware` writes the post-`Allow`
bucket back into the map to model that sharing). -/
def getLimiter (rl : RateLimiter) (ip : String) (now : ℚ) :
    LimiterState × RateLimiter :=
  match List.lookup ip rl.visitors with
  | none =>
    (⟨(rl.burst : ℚ), now⟩,
     { rl with visitors := (ip, ⟨⟨(rl.burst : ℚ), now⟩, now⟩) :: rl.visitors })
  | some v =>
    (v.limiter,
     { rl with visitors :=
        rl.visitors.map (fun p => bif p.1 == ip then (p.1, { p.2 with lastSeen := now }) else p) })

/-- One pass of the `cleanup` sweep at time `now`: delete every entry
whose last-seen timestamp is more than `idleThreshold` in the past. -/
def cleanup (rl : RateLimiter) (now : ℚ) : RateLimiter :=
  { rl with visitors :=
      rl.visitors.filter (fun p => decide (now - p.2.lastSeen ≤ idleThreshold)) }

/-- Outcome of one request through the `middleware` at the HTTP layer:
either the wrapped handler is invoked, or the request is rejected with
the given status code, `Retry-After` header value, and response body. -/
inductive MWOut where
  | next
  | reject (status : ℕ) (retryAfter : String) (body : String)
deriving DecidableEq

/-- The fixed rejection response of the middleware: HTTP 429
(`StatusTooManyRequests`), `Retry-After: 60`, JSON error body. -/
def rejectOut : MWOut :=
  .reject 429 "60" "\x7b\"error\":\"rate limit exceeded\",\"retry_after\":60\x7d"

/-- One request from `ip` at time `now` through `middleware`: fetch (or
create) the IP's bucket, try to consume a token, write the bucket back,
and either reject or pass to the wrapped handler. -/
def middleware (rl : RateLimiter) (ip : String) (now : ℚ) : MWOut × RateLimiter :=
  let g := getLimiter rl ip now
  let a := limiterAllow g.2.rate g.2.burst now g.1
  let rl2 := { g.2 with
    visitors := g.2.visitors.map
      (fun p => bif p.1 == ip then (p.1, { p.2 with limiter := a.2 }) else p) }
  (if a.1 then .next else rejectOut, rl2)

/-- `n` requests from the same IP all at time `t`, returning the
outcomes in order together with the final limiter state. -/
def sendN (rl : RateLimiter) (ip : String) (t : ℚ) : ℕ → List MWOut × RateLimiter
  | 0 => ([], rl)
  | n + 1 =>
    let s := sendN rl ip t n
    let m := middleware s.2 ip t
    (s.1 ++ [m.1], m.2)

/-- A request at time `t`, then one further request after each gap in
`gaps`, returning the outcomes in order with the final state. -/
def runGaps (rl : RateLimiter) (ip : String) (t : ℚ) : List ℚ → List MWOut × RateLimiter
  | [] =>
    let m := middleware rl ip t
    ([m.1], m.2)
  | g :: gs =>
    let m := middleware rl ip t
    let r := runGaps m.2 ip (t + g) gs
    (m.1 :: r.1, r.2)

/-- A single-IP limiter state with the `/message` configuration
(rate `1/2` token per second, burst 10), bucket `c` tokens, all
timestamps `t` — the shape reachable in the burst/refill scenarios. -/
def oneIP (ip : String) (c t : ℚ) : RateLimiter :=
  ⟨[(ip, ⟨⟨c, t⟩, t⟩)], 1/2, 10⟩

/-! ## Helper lemmas -/

theorem lookup_filter_ne {β : Type} (l : List (String × β)) (k a : String) (h : k ≠ a) :
    List.lookup k (List.filter (fun p => decide (p.1 ≠ a)) l) = List.lookup k l := by
  induction l with
  | nil => rfl
  | cons p ps ih =>
    obtain ⟨pa, pb⟩ := p
    simp only [decide_not] at ih ⊢
    have hka : (k == a) = false := by simp [h]
    by_cases hp : pa = a
    · simp [List.filter_cons, List.lookup, hp, hka, ih]
    · cases hkp : (k == pa) <;> simp [List.filter_cons, List.lookup, hp, hkp, ih]

theorem lookup_valuesSet_self (q : Values) (a v : String) :
    List.lookup a (valuesSet q a v) = some v := by
  simp [valuesSet, List.lookup]

theorem lookup_valuesSet_ne (q : Values) (k a v : String) (h : k ≠ a) :
    List.lookup k (valuesSet q a v) = List.lookup k q := by
  have hk : (k == a) = false := by simp [h]
  simp only [valuesSet, List.lookup, hk]
  exact lookup_filter_ne _ _ _ h

theorem lookup_foldl_valuesSet (extra : List (String × String)) (q : Values) (k : String)
    (h : ∀ p ∈ extra, p.1 ≠ k) :
    List.lookup k (List.foldl (fun q p => valuesSet q p.1 p.2) q extra) =
      List.lookup k q := by
  induction extra generalizing q with
  | nil => rfl
  | cons p ps ih =>
    rw [List.foldl_cons, ih _ (fun r hr => h r (List.mem_cons_of_mem p hr)),
      lookup_valuesSet_ne _ _ _ _ (Ne.symm (h p (List.mem_cons_self p ps)))]

theorem getStr_absent (args : ToolArguments) (key fb : String)
    (h : List.lookup key args = none) : getStr args key fb = fb := by
  simp [getStr, h]

theorem getStr_str (args : ToolArguments) (key fb v : String)
    (h : List.lookup key args = some (.str v)) (hv : v ≠ "") :
    getStr args key fb = v := by
  simp [getStr, h, hv]

theorem getInt_absent (args : ToolArguments) (key : String) (fb : Int)
    (h : List.lookup key args = none) : getInt args key fb = fb := by
  simp [getInt, h]

theorem getInt_num (args : ToolArguments) (key : String) (fb n : Int)
    (h : List.lookup key args = some (.num n)) : getInt args key fb = n := by
  simp [getInt, h]

/-- In a URL built with the single extra pair `("h2h", v)`, the encoded
query places `h2h` first (keys sort as `h2h < lang < version`), so the
URL contains `h2h=<escaped v>` as a substring. -/
theorem h2h_value_infix (path : String) (args : ToolArguments) (v : String) :
    ("h2h" ++ "=" ++ queryEscape v).data <:+: (buildURL path args [("h2h", v)]).data := by
  have henc : valuesEncode (buildQuery args [("h2h", v)])
      = ("h2h" ++ "=" ++ queryEscape v) ++ "&"
        ++ joinAmp ["lang" ++ "=" ++ queryEscape (getStr args "language" defaultLang),
            "version" ++ "=" ++ queryEscape (toString (getInt args "version" defaultVersion))] :=
    rfl
  rw [buildURL, henc]
  refine ⟨(baseURL ++ "/" ++ path ++ "?").data,
    ("&" ++ joinAmp ["lang" ++ "=" ++ queryEscape (getStr args "language" defaultLang),
        "version" ++ "=" ++ queryEscape (toString (getInt args "version" defaultVersion))]).data,
    ?_⟩
  simp [String.data_append, List.append_assoc]

/-! ## Claims -/

/-- **C1 (counterexample).** The claim says every *2xx* status with a
JSON body yields a non-error Text result, but `apiRequest` only treats
`http.StatusOK` (200) as success: a 201 response with the parseable
body `{}` yields an Error result. -/
theorem apiRequest_2xx_counterexample :
    (apiRequest 201 "\x7b\x7d" "T").isError = true
    ∧ (parseJson "\x7b\x7d").isSome = true
    ∧ 200 ≤ 201 ∧ 201 < 300 :=
  ⟨rfl, rfl, by norm_num, by norm_num⟩

/-- **C1 (amended).** For an upstream response with status exactly 200
(the only status the code treats as success) whose body parses as
JSON, `apiRequest` returns a non-error Text result consisting of the
caller-supplied title prefix followed by the body re-serialized as
indented JSON; for a 200 response whose body fails JSON parsing, it
returns a non-error Text result containing the raw body with the same
title prefix. -/
theorem apiRequest_status200 :
    (∀ body title v, parseJson body = some v →
      apiRequest 200 body title = .text (title ++ ":\n\n" ++ marshalIndent v)
        ∧ (apiRequest 200 body title).isError = false)
    ∧ (∀ body title, parseJson body = none →
      apiRequest 200 body title = .text (title ++ ":\n\n" ++ body)
        ∧ (apiRequest 200 body title).isError = false) := by
  constructor
  · intro body title v h
    simp [apiRequest, h, ToolResult.isError]
  · intro body title h
    simp [apiRequest, h, ToolResult.isError]

/-- Witness for C1: status 200, body `{"a":1}` yields the
pretty-printed object under the title. -/
theorem apiRequest_status200_witness :
    apiRequest 200 "\x7b\"a\":1\x7d" "Live Scores"
      = ToolResult.text "Live Scores:\n\n\x7b\n  \"a\": 1\n\x7d" := by
  rw [(apiRequest_status200.1 "\x7b\"a\":1\x7d" "Live Scores"
    (Json.obj [("a", Json.num 1)]) rfl).1]
  decide

/-- **C2.** For every upstream response with a non-2xx status,
`apiRequest` returns an Error result whose message contains both the
numeric status code and the raw response body text. -/
theorem apiRequest_non2xx (status : ℕ) (body title : String)
    (h : status < 200 ∨ 300 ≤ status) :
    ∃ msg, apiRequest status body title = .error msg
      ∧ (toString status).data <:+: msg.data ∧ body.data <:+: msg.data := by
  have hne : status ≠ 200 := by omega
  refine ⟨"API error (status " ++ toString status ++ "): " ++ body,
    by simp [apiRequest, hne], ?_, ?_⟩
  · exact ⟨"API error (status ".data, "): ".data ++ body.data,
      by simp [String.data_append]⟩
  · exact ⟨("API error (status " ++ toString status ++ "): ").data, [],
      by simp [String.data_append]⟩

/-- Witness for C2: a 404 response with body `not found` yields an
Error whose message contains `404` and `not found`. -/
theorem apiRequest_non2xx_witness :
    ∃ msg, apiRequest 404 "not found" "Team info for ID 1" = .error msg
      ∧ (toString (404 : ℕ)).data <:+: msg.data ∧ ("not found").data <:+: msg.data :=
  apiRequest_non2xx 404 "not found" "Team info for ID 1" (by norm_num)

/-- **C8 (counterexample).** The claim says every invocation with a
string argument `message` echoes that message, but `getStr` treats the
empty string as absent: `message=""` echoes the `"ok"` fallback, not
the supplied message. -/
theorem health_empty_message_counterexample :
    healthHandler [("message", ArgValue.str "")] = ToolResult.text "Echo: ok"
    ∧ healthHandler [("message", ArgValue.str "")] ≠ ToolResult.text ("Echo: " ++ "") := by
  constructor <;> decide

/-- **C8 (amended).** For every invocation of the `health` tool with a
*non-empty* string argument `message`, the result is a non-error Text
result exactly `"Echo: " ++ message` (an empty `message` falls back to
the default echo `"Echo: ok"`); the handler is a pure function of its
arguments (no network call) and never returns an Error result. -/
theorem health_echo (args : ToolArguments) :
    (∀ msg, msg ≠ "" → List.lookup "message" args = some (.str msg) →
      healthHandler args = .text ("Echo: " ++ msg))
    ∧ (healthHandler args).isError = false := by
  constructor
  · intro msg hne h
    rw [healthHandler, getStr_str _ _ _ _ h hne]
  · rfl

/-- Witness for C8: `message="ping"` echoes `Echo: ping`, non-error. -/
theorem health_echo_witness :
    healthHandler [("message", ArgValue.str "ping")] = ToolResult.text "Echo: ping"
    ∧ (healthHandler [("message", ArgValue.str "ping")]).isError = false := by
  constructor
  · rw [(health_echo [("message", ArgValue.str "ping")]).1 "ping" (by decide) rfl]
    decide
  · exact (health_echo [("message", ArgValue.str "ping")]).2

/-- **C5.** For every invocation routed through `buildURL`, when the
optional `language` argument is absent the query parameter `lang`
equals `"en"`, and when `version` is absent the query parameter
`version` equals `"2800"` (the fixed default constant), provided the
tool's extra pairs do not themselves set that key — no call site
does. -/
theorem buildURL_defaults (args : ToolArguments) (extra : List (String × String)) :
    (List.lookup "language" args = none → (∀ p ∈ extra, p.1 ≠ "lang") →
      List.lookup "lang" (buildQuery args extra) = some "en")
    ∧ (List.lookup "version" args = none → (∀ p ∈ extra, p.1 ≠ "version") →
      List.lookup "version" (buildQuery args extra) = some "2800") := by
  constructor
  · intro h hex
    simp only [buildQuery]
    rw [lookup_foldl_valuesSet _ _ _ hex,
      lookup_valuesSet_ne _ _ _ _ (by decide),
      lookup_valuesSet_self, getStr_absent _ _ _ h]
    rfl
  · intro h hex
    simp only [buildQuery]
    rw [lookup_foldl_valuesSet _ _ _ hex, lookup_valuesSet_self,
      getInt_absent _ _ _ h]
    decide

/-- Witness for C5: no arguments, no extra pairs. -/
theorem buildURL_defaults_witness :
    List.lookup "lang" (buildQuery [] []) = some "en"
    ∧ List.lookup "version" (buildQuery [] []) = some "2800" :=
  ⟨(buildURL_defaults [] []).1 rfl (by simp),
   (buildURL_defaults [] []).2 rfl (by simp)⟩

/-- **C7.** The `search` tool omits the `country` query parameter
entirely when the `country` argument is absent, and includes
`country=<value>` when a non-empty country string is supplied. -/
theorem search_country (args : ToolArguments) :
    (List.lookup "country" args = none →
      List.lookup "country" (searchValues args) = none)
    ∧ (∀ c, c ≠ "" → List.lookup "country" args = some (.str c) →
      List.lookup "country" (searchValues args) = some c) := by
  constructor
  · intro h
    have hc : getStr args "country" "" = "" := getStr_absent _ _ _ h
    simp only [searchValues, hc]
    rw [if_neg (by simp), lookup_valuesSet_ne _ _ _ _ (by decide),
      lookup_valuesSet_ne _ _ _ _ (by decide), lookup_valuesSet_ne _ _ _ _ (by decide)]
    rfl
  · intro c hc h
    have hg : getStr args "country" "" = c := getStr_str _ _ _ _ h hc
    simp only [searchValues, hg]
    rw [if_pos hc, lookup_valuesSet_self]

/-- Witness for C7: `country` absent vs `country="Netherlands"`. -/
theorem search_country_witness :
    List.lookup "country" (searchValues [("q", ArgValue.str "ajax")]) = none
    ∧ List.lookup "country"
        (searchValues [("q", ArgValue.str "ajax"), ("country", ArgValue.str "Netherlands")])
      = some "Netherlands" :=
  ⟨(search_country [("q", ArgValue.str "ajax")]).1 rfl,
   (search_country [("q", ArgValue.str "ajax"), ("country", ArgValue.str "Netherlands")]).2
     "Netherlands" (by decide) rfl⟩

/-- **C9 (counterexample).** The claim says every tool resolves an
absent declared-required parameter to the *empty-string* default, but
the `health` handler calls `getStr(args, "message", "ok")`: with
`message` absent the value resolves to `"ok"`, not `""`, and the
result is `"Echo: ok"` rather than `"Echo: "`. -/
theorem missing_required_health_counterexample :
    getStr [] "message" "ok" = "ok"
    ∧ ("ok" : String) ≠ ""
    ∧ healthHandler [] = ToolResult.text "Echo: ok"
    ∧ healthHandler [] ≠ ToolResult.text ("Echo: " ++ "") := by
  refine ⟨rfl, by decide, rfl, by decide⟩

/-- **C9 (amended).** For every tool, an absent declared-required
parameter raises no local error: `getStr` is total and resolves the
value to the call site's fallback — the empty string for every
URL-building tool, but `"ok"` for `health`'s `message`, which then
echoes `"Echo: ok"`. For URL-building tools the empty string is
interpolated into the upstream path, so `get_team` with `id` absent
requests the path `team_gs/.json`. -/
theorem missing_required_resolves_fallback (args : ToolArguments) :
    (∀ key fb, List.lookup key args = none → getStr args key fb = fb)
    ∧ (List.lookup "id" args = none →
        getTeamPath args = "team_gs/.json"
        ∧ getTeamURL args = baseURL ++ "/" ++ "team_gs/.json" ++ "?"
            ++ valuesEncode (buildQuery args []))
    ∧ (List.lookup "message" args = none →
        healthHandler args = ToolResult.text "Echo: ok") := by
  refine ⟨fun key fb h => getStr_absent _ _ _ h, fun h => ?_, fun h => ?_⟩
  · have hp : getTeamPath args = "team_gs/.json" := by
      rw [getTeamPath, getStr_absent _ _ _ h]
      decide
    exact ⟨hp, by rw [getTeamURL, buildURL, hp]⟩
  · rw [healthHandler, getStr_absent _ _ _ h]
    decide

/-- Witness for C9: the empty argument map — `id` resolves to `""` and
builds `team_gs/.json`, while `health` echoes its `"ok"` fallback. -/
theorem missing_required_fallback_witness :
    getStr [] "id" "" = "" ∧ getTeamPath [] = "team_gs/.json"
    ∧ healthHandler [] = ToolResult.text "Echo: ok" :=
  ⟨(missing_required_resolves_fallback []).1 "id" "" rfl,
   ((missing_required_resolves_fallback []).2.1 rfl).1,
   (missing_required_resolves_fallback []).2.2 rfl⟩

/-- **C6.** For the `get_match` tool, when the numeric `h2h` argument
is absent the built upstream query string contains `h2h=1`, and when
`h2h=0` is explicitly supplied as a number it contains `h2h=0` (the
explicit zero is not replaced by the default). -/
theorem getMatch_h2h (args : ToolArguments) :
    (List.lookup "h2h" args = none →
      "h2h=1".data <:+: (getMatchURL args).data)
    ∧ (List.lookup "h2h" args = some (.num 0) →
      "h2h=0".data <:+: (getMatchURL args).data) := by
  constructor
  · intro h
    have hi : getInt args "h2h" 1 = 1 := getInt_absent _ _ _ h
    rw [getMatchURL, hi]
    exact h2h_value_infix ("matches/" ++ getStr args "id" "" ++ ".json") args "1"
  · intro h
    have hi : getInt args "h2h" 1 = 0 := getInt_num _ _ _ _ h
    rw [getMatchURL, hi]
    exact h2h_value_infix ("matches/" ++ getStr args "id" "" ++ ".json") args "0"

/-- Witness for C6: `h2h` absent vs `h2h=0` supplied. -/
theorem getMatch_h2h_witness :
    "h2h=1".data <:+: (getMatchURL [("id", ArgValue.str "123")]).data
    ∧ "h2h=0".data <:+:
        (getMatchURL [("id", ArgValue.str "123"), ("h2h", ArgValue.num 0)]).data :=
  ⟨(getMatch_h2h [("id", ArgValue.str "123")]).1 rfl,
   (getMatch_h2h [("id", ArgValue.str "123"), ("h2h", ArgValue.num 0)]).2 rfl⟩

theorem lookup_map_update {β : Type} (l : List (String × β)) (ip : String)
    (f : String × β → β) :
    List.lookup ip (l.map (fun p => bif p.1 == ip then (p.1, f p) else p))
      = (List.lookup ip l).map (fun b => f (ip, b)) := by
  induction l with
  | nil => rfl
  | cons p ps ih =>
    obtain ⟨pa, pb⟩ := p
    simp only [List.map_cons]
    by_cases hp : pa = ip
    · subst hp
      simp [List.lookup, ih]
    · have hip : (ip == pa) = false := by simp [Ne.symm hp]
      have hpa : (pa == ip) = false := by simp [hp]
      simp [List.lookup, hpa, hip, ih]

theorem lookup_filter_of_kept {β : Type} (l : List (String × β)) (ip : String) (v : β)
    (p : String × β → Bool) (hl : List.lookup ip l = some v) (hp : p (ip, v) = true) :
    List.lookup ip (l.filter p) = some v := by
  induction l with
  | nil => simp at hl
  | cons q qs ih =>
    obtain ⟨qa, qb⟩ := q
    by_cases hq : ip = qa
    · subst hq
      simp only [List.lookup, beq_self_eq_true] at hl
      obtain rfl : qb = v := by simpa using hl
      rw [List.filter_cons, if_pos hp]
      simp [List.lookup]
    · have hip : (ip == qa) = false := by simp [hq]
      simp only [List.lookup, hip] at hl
      rw [List.filter_cons]
      by_cases hk : p (qa, qb) = true
      · rw [if_pos hk]
        simp [List.lookup, hip, ih hl]
      · rw [if_neg hk]
        exact ih hl

theorem getLimiter_none (rl : RateLimiter) (ip : String) (now : ℚ)
    (h : List.lookup ip rl.visitors = none) :
    getLimiter rl ip now =
      (⟨(rl.burst : ℚ), now⟩,
       { rl with visitors := (ip, ⟨⟨(rl.burst : ℚ), now⟩, now⟩) :: rl.visitors }) := by
  simp only [getLimiter, h]

theorem getLimiter_some (rl : RateLimiter) (ip : String) (now : ℚ) (v : IpLimiter)
    (h : List.lookup ip rl.visitors = some v) :
    getLimiter rl ip now =
      (v.limiter,
       { rl with visitors :=
          rl.visitors.map (fun p => bif p.1 == ip then (p.1, { p.2 with lastSeen := now }) else p) }) := by
  simp only [getLimiter, h]

theorem one_le_rmin_ten {x : ℚ} (h : 1 ≤ x) : 1 ≤ rmin 10 x := by
  rw [rmin]
  split
  · norm_num
  · exact h

theorem rmin_ten_le {x : ℚ} : rmin 10 x ≤ 10 := by
  by_cases h : (10 : ℚ) ≤ x
  · rw [rmin, if_pos h]
  · rw [rmin, if_neg h]
    linarith [not_le.mp h]

theorem rmin_same (c : ℚ) (hc : c ≤ 10) (t : ℚ) :
    rmin 10 (c + (t - t) * (1/2)) = c := by
  rw [sub_self, zero_mul, add_zero, rmin]
  split
  · next h => linarith
  · rfl

/-- One middleware step on a single-entry `/message`-shaped state:
token availability decides accept/reject, `lastSeen` is bumped either
way, and a denied request leaves the bucket untouched. -/
theorem mw_single (ip : String) (c t now : ℚ) :
    middleware (oneIP ip c t) ip now =
      (if 1 ≤ rmin 10 (c + (now - t) * (1/2)) then MWOut.next else rejectOut,
       ⟨[(ip, ⟨if 1 ≤ rmin 10 (c + (now - t) * (1/2))
            then ⟨rmin 10 (c + (now - t) * (1/2)) - 1, now⟩
            else ⟨c, t⟩, now⟩)], 1/2, 10⟩) := by
  have hl : List.lookup ip (oneIP ip c t).visitors = some ⟨⟨c, t⟩, t⟩ := by
    simp [oneIP, List.lookup]
  simp only [middleware, getLimiter_some _ _ _ _ hl]
  by_cases hc : 1 ≤ rmin (10 : ℚ) (c + (now - t) * (1/2)) <;>
    simp [oneIP, limiterAllow, limiterAdvance, hc, Nat.cast_ofNat, List.map_cons, -one_div]

/-- The first request from an unknown IP through the `/message`
limiter is accepted, leaving 9 of the 10 burst tokens. -/
theorem mw_fresh (ip : String) (t : ℚ) :
    middleware messageLimiter ip t = (MWOut.next, oneIP ip 9 t) := by
  have hl : List.lookup ip messageLimiter.visitors = none := rfl
  simp only [middleware, getLimiter_none _ _ _ hl]
  norm_num [messageLimiter, newRateLimiter, rateEvery, limiterAllow, limiterAdvance,
    rmin, oneIP, List.lookup]

/-- **C4.** One `cleanup` sweep at time `now` keeps exactly the entries
whose last-seen timestamp is within the 10-minute idle threshold
(strictly older entries are removed), and an IP with no entry — in
particular one re-arriving after eviction — is given a fresh entry
with a full bucket by `getLimiter`. -/
theorem cleanup_sweep (rl : RateLimiter) (now : ℚ) :
    (∀ ip v, (ip, v) ∈ (cleanup rl now).visitors ↔
      (ip, v) ∈ rl.visitors ∧ now - v.lastSeen ≤ idleThreshold)
    ∧ (∀ ip t, List.lookup ip rl.visitors = none →
        (getLimiter rl ip t).1 = ⟨(rl.burst : ℚ), t⟩
        ∧ List.lookup ip (getLimiter rl ip t).2.visitors
            = some ⟨⟨(rl.burst : ℚ), t⟩, t⟩) := by
  constructor
  · intro ip v
    simp [cleanup, List.mem_filter]
  · intro ip t h
    simp [getLimiter, h, List.lookup]

/-- Witness for C4: a fresh arrival in the `/message` limiter receives
a full bucket of 10 tokens. -/
theorem cleanup_sweep_witness :
    (getLimiter messageLimiter "9.9.9.9" 3).1 = ⟨(messageLimiter.burst : ℚ), 3⟩
    ∧ List.lookup "9.9.9.9" (getLimiter messageLimiter "9.9.9.9" 3).2.visitors
        = some ⟨⟨(messageLimiter.burst : ℚ), 3⟩, 3⟩ :=
  (cleanup_sweep messageLimiter 3).2 "9.9.9.9" 3 rfl

/-- **C10.** Every request through the middleware — accepted or
rejected — updates that IP's `lastSeen` to the current time (the
`getLimiter` call bumps it before `Allow` is consulted), so a sweep at
any time within the idle threshold of the request still finds the
entry. -/
theorem middleware_bumps_lastSeen (rl : RateLimiter) (ip : String) (now : ℚ) :
    ((List.lookup ip (middleware rl ip now).2.visitors).map IpLimiter.lastSeen = some now)
    ∧ (∀ T, T - now ≤ idleThreshold →
      (List.lookup ip (cleanup (middleware rl ip now).2 T).visitors).map
          IpLimiter.lastSeen = some now) := by
  have h1 : (List.lookup ip (middleware rl ip now).2.visitors).map
      IpLimiter.lastSeen = some now := by
    cases hl : List.lookup ip rl.visitors with
    | none =>
      simp only [middleware, getLimiter_none rl ip now hl]
      rw [lookup_map_update]
      simp [List.lookup]
    | some v =>
      simp only [middleware, getLimiter_some rl ip now v hl]
      rw [lookup_map_update, lookup_map_update, hl]
      rfl
  refine ⟨h1, fun T hT => ?_⟩
  cases hv : List.lookup ip (middleware rl ip now).2.visitors with
  | none => rw [hv] at h1; simp at h1
  | some v =>
    rw [hv] at h1
    have hseen : v.lastSeen = now := by simpa using h1
    rw [cleanup]
    rw [lookup_filter_of_kept _ _ _ _ hv (by simp [hseen, hT])]
    simp [hseen]

/-- Witness for C10: a request from an IP with an empty bucket is
rejected yet still bumps `lastSeen`, so a sweep 94 seconds later keeps
the entry. -/
theorem middleware_bumps_lastSeen_witness :
    (middleware ⟨[("1.2.3.4", ⟨⟨0, 5⟩, 5⟩)], 1/2, 10⟩ "1.2.3.4" 6).1 = rejectOut
    ∧ (List.lookup "1.2.3.4"
        (cleanup (middleware ⟨[("1.2.3.4", ⟨⟨0, 5⟩, 5⟩)], 1/2, 10⟩ "1.2.3.4" 6).2
          100).visitors).map IpLimiter.lastSeen = some 6 :=
  ⟨by
    rw [show (⟨[("1.2.3.4", ⟨⟨0, 5⟩, 5⟩)], 1/2, 10⟩ : RateLimiter) = oneIP "1.2.3.4" 0 5
        from rfl, mw_single]
    norm_num [rmin],
   (middleware_bumps_lastSeen ⟨[("1.2.3.4", ⟨⟨0, 5⟩, 5⟩)], 1/2, 10⟩ "1.2.3.4" 6).2 100
     (by norm_num [idleThreshold])⟩

/-- `n` instantaneous requests from a fresh IP: the burst capacity is
consumed one token per accepted request and never refills at the same
instant, so the `n`-request run ends with `10 - min n 10` tokens. -/
theorem sendN_spec (ip : String) (t : ℚ) (n : ℕ) (hn : 1 ≤ n) :
    sendN messageLimiter ip t n =
      (List.replicate (min n 10) MWOut.next ++ List.replicate (n - 10) rejectOut,
       oneIP ip ((10 - min n 10 : ℕ) : ℚ) t) := by
  induction n with
  | zero => omega
  | succ m ih =>
    rcases Nat.eq_zero_or_pos m with hm | hm
    · subst hm
      simp only [sendN, mw_fresh]
      norm_num
    · have ihm := ih hm
      simp only [sendN, ihm]
      rw [mw_single]
      have hcle : ((10 - min m 10 : ℕ) : ℚ) ≤ 10 := by
        have h : (10 - min m 10 : ℕ) ≤ 10 := by omega
        exact_mod_cast h
      rw [rmin_same _ hcle]
      rcases le_or_lt m 9 with hm9 | hm9
      · have hc : (1 : ℚ) ≤ ((10 - min m 10 : ℕ) : ℚ) := by
          have h : 1 ≤ 10 - min m 10 := by omega
          exact_mod_cast h
        rw [if_pos hc, if_pos hc]
        have h5 : ((10 - min m 10 : ℕ) : ℚ) - 1 = ((10 - min (m + 1) 10 : ℕ) : ℚ) := by
          have e : 10 - min m 10 = (10 - min (m + 1) 10) + 1 := by omega
          rw [e]
          push_cast
          ring
        have h1 : min m 10 = m := by omega
        have h2 : min (m + 1) 10 = m + 1 := by omega
        have h3 : m - 10 = 0 := by omega
        have h4 : m + 1 - 10 = 0 := by omega
        rw [h5, h1, h2, h3, h4, List.replicate_succ' m]
        simp [oneIP]
      · have hc : ¬ (1 : ℚ) ≤ ((10 - min m 10 : ℕ) : ℚ) := by
          have hz : 10 - min m 10 = 0 := by omega
          rw [hz]
          norm_num
        rw [if_neg hc, if_neg hc]
        have h1 : min m 10 = 10 := by omega
        have h2 : min (m + 1) 10 = 10 := by omega
        have h3 : m + 1 - 10 = (m - 10) + 1 := by omega
        rw [h1, h2, h3, List.replicate_succ' (m - 10)]
        simp [oneIP, List.append_assoc]

/-- A middleware step with a token available: accepted, one token
consumed, timestamps advanced. -/
theorem mw_accept (ip : String) (c t now : ℚ)
    (hc : 1 ≤ rmin 10 (c + (now - t) * (1/2))) :
    middleware (oneIP ip c t) ip now =
      (MWOut.next, oneIP ip (rmin 10 (c + (now - t) * (1/2)) - 1) now) := by
  rw [mw_single, if_pos hc, if_pos hc]
  rfl

/-- Requests spaced at least one refill interval (2 seconds) apart are
always accepted: the bucket gains at least the one token each request
consumes. -/
theorem runGaps_spec (ip : String) (gs : List ℚ) :
    ∀ (c t0 t1 : ℚ), 0 ≤ c → c ≤ 10 → 1 ≤ c + (t1 - t0) * (1/2) →
      (∀ g ∈ gs, 2 ≤ g) →
      (runGaps (oneIP ip c t0) ip t1 gs).1
        = List.replicate (gs.length + 1) MWOut.next := by
  induction gs with
  | nil =>
    intro c t0 t1 h0 h10 h1 _
    have hc : (1 : ℚ) ≤ rmin 10 (c + (t1 - t0) * (1/2)) := one_le_rmin_ten h1
    simp only [runGaps, mw_accept ip c t0 t1 hc, List.length_nil]
    rfl
  | cons g gs ih =>
    intro c t0 t1 h0 h10 h1 hg
    have hc : (1 : ℚ) ≤ rmin 10 (c + (t1 - t0) * (1/2)) := one_le_rmin_ten h1
    simp only [runGaps, mw_accept ip c t0 t1 hc]
    rw [ih (rmin 10 (c + (t1 - t0) * (1/2)) - 1) t1 (t1 + g) (by linarith)
      (by linarith [rmin_ten_le (x := c + (t1 - t0) * (1/2))]) ?_
      (fun x hx => hg x (List.mem_cons_of_mem _ hx))]
    · simp [List.replicate_succ]
    · have hg2 : (2 : ℚ) ≤ g := hg g (List.mem_cons_self _ _)
      have he : (t1 + g - t1) * (1/2 : ℚ) = g * (1/2) := by ring
      rw [he]
      linarith

/-- **C3.** Through the `/message` middleware with the configured
limiter (burst 10, one token per 2 s), a fresh IP's first 10
instantaneous requests all invoke the wrapped handler (`MWOut.next`)
and every further instantaneous request is rejected with status 429, a
`Retry-After: 60` header, and the JSON error body, the handler not
being invoked (`rejectOut`); and any sequence of requests spaced at
least 2 seconds apart (at most the refill rate) is accepted in its
entirety. -/
theorem rateLimiter_burst_refill :
    (∀ (ip : String) (t : ℚ) (n : ℕ),
      (sendN messageLimiter ip t n).1 =
        List.replicate (min n 10) MWOut.next ++ List.replicate (n - 10) rejectOut)
    ∧ (∀ (ip : String) (t : ℚ) (gaps : List ℚ), (∀ g ∈ gaps, 2 ≤ g) →
      (runGaps messageLimiter ip t gaps).1
        = List.replicate (gaps.length + 1) MWOut.next) := by
  constructor
  · intro ip t n
    rcases Nat.eq_zero_or_pos n with h | h
    · subst h
      rfl
    · rw [sendN_spec ip t n h]
  · intro ip t gaps hg
    cases gaps with
    | nil => simp [runGaps, mw_fresh]
    | cons g gs =>
      simp only [runGaps, mw_fresh]
      rw [runGaps_spec ip gs 9 t (t + g) (by norm_num) (by norm_num) ?_
        (fun x hx => hg x (List.mem_cons_of_mem _ hx))]
      · simp [List.replicate_succ]
      · have hg2 : (2 : ℚ) ≤ g := hg g (List.mem_cons_self _ _)
        have he : (t + g - t) * (1/2 : ℚ) = g * (1/2) := by ring
        rw [he]
        linarith

/-- Witness for C3: 12 instantaneous requests yield 10 accepts then 2
rejects, and three requests spaced 2 seconds apart all succeed. -/
theorem rateLimiter_burst_refill_witness :
    (sendN messageLimiter "203.0.113.7" 0 12).1 =
        List.replicate (min 12 10) MWOut.next ++ List.replicate (12 - 10) rejectOut
    ∧ (runGaps messageLimiter "203.0.113.7" 0 [2, 2]).1 = List.replicate 3 MWOut.next :=
  ⟨rateLimiter_burst_refill.1 "203.0.113.7" 0 12,
   rateLimiter_burst_refill.2 "203.0.113.7" 0 [2, 2] (by
     intro g hg
     rcases List.mem_cons.mp hg with rfl | hg2
     · norm_num
     · rcases List.mem_cons.mp hg2 with rfl | hg3
       · norm_num
       · simp at hg3)⟩

end LiveScoreMCP
